import Mathlib

/-!
Verification of the SqueakView DeepStream YOLO postprocessing parsers
(`yolo_obb_parser.cpp`, `yolo_pose_parser.cpp` in `nvdsinfer_custom_impl_Yolo`,
and the `_int8test` pose variant).

The C++ code operates on 32-bit floats; the embedding renders the arithmetic
exactly over `ℚ` (all operations used by the code - `+`, `-`, `*`, `/`,
`min`, `max`, `fabs`, comparisons, `lround` - are rational operations).
Tensor buffers become `List ℚ`; a null buffer pointer becomes `none`;
out-of-range reads (undefined behaviour in the source) default to `0`.
Fallible decode calls return `Option`; the `bool` success flag of an entry
point together with its output parameter becomes an explicit pair, so that
"the caller's list is untouched on failure" is a provable statement.
`std::sort` with the strict comparator `a.conf > b.conf` is rendered as
`List.mergeSort` with the total relation `b.conf ≤ a.conf`, a deterministic
refinement of the unspecified tie order of `std::sort`.
-/

/-- `clampf` from yolo_obb_parser.cpp: `std::min(std::max(v, lo), hi)`. -/
def clampf (v lo hi : ℚ) : ℚ := min (max v lo) hi

/-- `std::lround`: round to nearest integer, halfway cases away from zero. -/
def lround (q : ℚ) : ℤ := if 0 ≤ q then ⌊q + 1/2⌋ else ⌈q - 1/2⌉

/-- An oriented-box detection (`struct OBBDet`). -/
structure OBBDet where
  cx : ℚ
  cy : ℚ
  w : ℚ
  h : ℚ
  theta : ℚ
  conf : ℚ
  cls : ℤ
deriving DecidableEq, Repr, Inhabited

/-- `iou_aabb` from yolo_obb_parser.cpp: axis-aligned IoU of two OBB
detections, derived from center+size form, with the `1e-6` epsilon in the
denominator. -/
def iou_aabb (a b : OBBDet) : ℚ :=
  let ax1 := a.cx - a.w * (1/2); let ay1 := a.cy - a.h * (1/2)
  let ax2 := a.cx + a.w * (1/2); let ay2 := a.cy + a.h * (1/2)
  let bx1 := b.cx - b.w * (1/2); let by1 := b.cy - b.h * (1/2)
  let bx2 := b.cx + b.w * (1/2); let by2 := b.cy + b.h * (1/2)
  let xx1 := max ax1 bx1; let yy1 := max ay1 by1
  let xx2 := min ax2 bx2; let yy2 := min ay2 by2
  let w := max 0 (xx2 - xx1); let h := max 0 (yy2 - yy1)
  let inter := w * h
  let areaA := max 0 (ax2 - ax1) * max 0 (ay2 - ay1)
  let areaB := max 0 (bx2 - bx1) * max 0 (by2 - by1)
  let uni := areaA + areaB - inter + 1/1000000
  inter / uni

/-- The field-ordering disambiguation step of `decode_one`
(yolo_obb_parser.cpp lines 62-81): given fields 4 and 5 of a row, decide
which is the rotation `theta` and which the objectness `obj`, returning
`(theta, obj)`.  `layout0` tests the ordering `[theta, obj]`, `layout1`
the ordering `[obj, theta]`; the fallback is the Ultralytics default
`[theta, obj]`. -/
def chooseThetaObj (p4 p5 : ℚ) : ℚ × ℚ :=
  let layout0 := decide (|p4| ≤ 7/2) && decide (0 ≤ p5) && decide (p5 ≤ 10001/10000)
  let layout1 := decide (|p5| ≤ 7/2) && decide (0 ≤ p4) && decide (p4 ≤ 10001/10000)
  if layout0 && !layout1 then (p4, p5)
  else if layout1 && !layout0 then (p5, p4)
  else (p4, p5)

/-- The argmax loop shared by the parsers: starting from
`bestId = 0, bestSc = 0`, scan class scores `0..nc-1` and keep the first
strict maximum (`sc > bestSc`). -/
def argmaxLoop (score : ℕ → ℚ) (nc : ℕ) : ℤ × ℚ :=
  (List.range nc).foldl
    (fun best c => if best.2 < score c then ((c : ℤ), score c) else best)
    ((0 : ℤ), (0 : ℚ))

/-- `decode_one` from yolo_obb_parser.cpp: decode one row `p` of stride `D`
with `nc` classes into an `OBBDet`; `none` when `D < 6 + nc` or the
confidence is below threshold. -/
def decode_one (p : List ℚ) (D nc : ℤ) (inW inH conf_thr : ℚ) : Option OBBDet :=
  if D < 6 + nc then none else
  let cx := p.getD 0 0; let cy := p.getD 1 0
  let w := p.getD 2 0; let h := p.getD 3 0
  let tob := chooseThetaObj (p.getD 4 0) (p.getD 5 0)
  let theta := tob.1
  let obj := tob.2
  if obj < conf_thr then none else
  let best := if 1 < nc then argmaxLoop (fun c => p.getD (6 + c) 0) nc.toNat
              else ((0 : ℤ), (1 : ℚ))
  let conf := obj * best.2
  if conf < conf_thr then none else
  some { cx := clampf cx 0 (inW - 1), cy := clampf cy 0 (inH - 1),
         w := max 0 (min |w| inW), h := max 0 (min |h| inH),
         theta := theta, conf := conf, cls := best.1 }

/-- A pose detection (`struct PoseDet`): corner box, confidence, class,
flattened keypoint triples. -/
structure PoseDet where
  x1 : ℚ
  y1 : ℚ
  x2 : ℚ
  y2 : ℚ
  conf : ℚ
  cls : ℤ
  kpts : List ℚ
deriving DecidableEq, Repr, Inhabited

/-- The process-wide pose result cache (`struct PoseCache`, without the
mutex, which only guards the fields modelled here). -/
structure PoseCache where
  seq : ℕ
  kpts : ℕ
  flat : List ℚ
deriving DecidableEq, Repr, Inhabited

/-- `update_pose_cache`: bump the sequence number, record the keypoint
count, and rebuild the flat buffer as `[x1,y1,x2,y2,conf, kpts...]` per
detection. -/
def update_pose_cache (c : PoseCache) (dets : List PoseDet) (kpts : ℕ) : PoseCache :=
  { seq := c.seq + 1, kpts := kpts,
    flat := dets.flatMap (fun d => [d.x1, d.y1, d.x2, d.y2, d.conf] ++ d.kpts) }

/-- `iou_xyxy` from yolo_pose_parser.cpp: axis-aligned IoU on corner boxes
with the `1e-6` epsilon in the denominator. -/
def iou_xyxy (a b : PoseDet) : ℚ :=
  let xx1 := max a.x1 b.x1; let yy1 := max a.y1 b.y1
  let xx2 := min a.x2 b.x2; let yy2 := min a.y2 b.y2
  let w := max 0 (xx2 - xx1); let h := max 0 (yy2 - yy1)
  let inter := w * h
  let areaA := max 0 (a.x2 - a.x1) * max 0 (a.y2 - a.y1)
  let areaB := max 0 (b.x2 - b.x1) * max 0 (b.y2 - b.y1)
  inter / (areaA + areaB - inter + 1/1000000)

/-- `unletterbox`: map a network-space point back to source space
(subtract padding, divide by gain) and clamp each axis to
`[0, srcDim - 1]`. -/
def unletterbox (x y gain pad_x pad_y src_w src_h : ℚ) : ℚ × ℚ :=
  let x2 := (x - pad_x) / gain
  let y2 := (y - pad_y) / gain
  (min (max x2 0) (src_w - 1), min (max y2 0) (src_h - 1))

/-- The greedy NMS marking loop shared by all parsers (rendered
recursively: the head of the confidence-sorted list is kept and every
later not-yet-removed detection with `iou > iou_thr` against it is marked
removed, i.e. filtered out before the loop continues). -/
def nmsLoop (iou : α → α → ℚ) (iou_thr : ℚ) : List α → List α
  | [] => []
  | d :: rest =>
      d :: nmsLoop iou iou_thr (rest.filter (fun e => decide (iou d e ≤ iou_thr)))
termination_by l => l.length
decreasing_by
  simp only [List.length_cons]
  exact Nat.lt_succ_of_le (List.length_filter_le _ _)

/-- `std::sort(dets, [](a,b){return a.conf > b.conf;})`: sort by
confidence descending (deterministic stable refinement). -/
def sortByConf (conf : α → ℚ) (l : List α) : List α :=
  l.mergeSort (fun a b => decide (conf b ≤ conf a))

/-- The full NMS pass of the pose parsers: sort descending by confidence,
then run the greedy suppression loop. -/
def run_nms (iou_thr : ℚ) (dets : List PoseDet) : List PoseDet :=
  nmsLoop iou_xyxy iou_thr (sortByConf PoseDet.conf dets)

/-- A tensor layer (`NvDsInferLayerInfo`): data-type tag, declared shape,
buffer (`none` models a null pointer). -/
structure Layer where
  isFloat : Bool
  dims : List ℕ
  buffer : Option (List ℚ)

/-- Network input size (`NvDsInferNetworkInfo`). -/
structure NetInfo where
  width : ℕ
  height : ℕ

/-- Gather candidate row `i` as a contiguous field vector: channel-major
buffers are re-gathered (`row[c] = data[c*num + i]`), candidate-major rows
are read in place (`data[i*dim + c]`). -/
def rowOf (data : List ℚ) (cm : Bool) (dim num i : ℕ) : List ℚ :=
  (List.range dim).map (fun c =>
    if cm then data.getD (c * num + i) 0 else data.getD (i * dim + c) 0)

/-- The `(nc, kpts)` scanning loop of the legacy pose `decode`
(yolo_pose_parser.cpp lines 140-163), as a recursion over the remaining
guess budget: `g` is the current keypoint guess, `fuel` the number of
guesses left, `fallback` the recorded first non-negative remainder. -/
def scanK (dim : ℤ) (g : ℕ) (fuel : ℕ) (fallback : Option (ℤ × ℤ)) : Option (ℤ × ℤ) :=
  match fuel with
  | 0 => fallback
  | fuel2 + 1 =>
      let rem := dim - 5 - 3 * (g : ℤ)
      if rem < 0 then scanK dim (g + 1) fuel2 fallback
      else if rem = 0 then some (0, (g : ℤ))
      else scanK dim (g + 1) fuel2
             (match fallback with
              | none => some (rem, (g : ℤ))
              | some f => some f)

/-- Auto-inference of `(nc, kpts)` from `dim = 5 + nc + 3*kpts`: scan
keypoint guesses `1..50`; `none` when no guess gives a non-negative
remainder. -/
def inferNcKpts (dim : ℤ) : Option (ℤ × ℤ) := scanK dim 1 50 none

/-- Layout resolution of the legacy pose `decode`: rank 2 takes the
smaller dimension as the field stride (channel-major when it comes
first); rank 3 is `[B, C, N]`, always channel-major.  Returns
`(num_preds, dim, channel_major)`. -/
def resolveLegacy (dims : List ℕ) : Option (ℕ × ℕ × Bool) :=
  match dims with
  | [a, b] => if a < b then some (b, a, true) else some (a, b, false)
  | [_, d1, d2] => some (d2, d1, true)
  | _ => none

/-- The per-candidate body of the legacy pose `decode` loop
(yolo_pose_parser.cpp lines 198-252): threshold checks, class argmax,
xyxy-vs-cxcywh heuristic, letterbox inverse on the box corners and on
every keypoint. -/
def legacyCandidate (row : List ℚ) (nc kpts : ℕ)
    (inW inH gain pad_x pad_y src_w src_h conf_thr : ℚ) : Option PoseDet :=
  let cx := row.getD 0 0; let cy := row.getD 1 0
  let w := row.getD 2 0; let h := row.getD 3 0
  let obj := row.getD 4 0
  if obj < conf_thr then none else
  let best := if 1 < nc then argmaxLoop (fun c => row.getD (5 + c) 0) nc
              else ((0 : ℤ), (1 : ℚ))
  let conf := obj * best.2
  if conf < conf_thr then none else
  let xyxy := decide (inW < w) || decide (inH < h) || decide (inW < cx) || decide (inH < cy)
  let raw := if xyxy then (cx, cy, w, h)
             else (cx - (1/2) * w, cy - (1/2) * h, cx + (1/2) * w, cy + (1/2) * h)
  let c1 := unletterbox raw.1 raw.2.1 gain pad_x pad_y src_w src_h
  let c2 := unletterbox raw.2.2.1 raw.2.2.2 gain pad_x pad_y src_w src_h
  let kp := (List.range kpts).flatMap (fun k =>
    let kx := row.getD (5 + nc + 3 * k) 0
    let ky := row.getD (5 + nc + 3 * k + 1) 0
    let ks := row.getD (5 + nc + 3 * k + 2) 0
    let kc := unletterbox kx ky gain pad_x pad_y src_w src_h
    [kc.1, kc.2, ks])
  some { x1 := c1.1, y1 := c1.2, x2 := c2.1, y2 := c2.2,
         conf := conf, cls := best.1, kpts := kp }

/-- The legacy pose `decode` (yolo_pose_parser.cpp lines 105-271): resolve
the layout, infer `(nc, kpts)`, decode and filter all candidates, run NMS,
update the result cache.  `src_w`/`src_h` are the environment-derived
source-frame size (defaulting to the network size at the entry point),
mirroring `env_or_default`.  Returns the decoded list (`none` on failure)
and the resulting cache state. -/
def decode (L : Layer) (net : NetInfo) (src_w src_h conf_thr iou_thr : ℚ)
    (cache : PoseCache) : Option (List PoseDet) × PoseCache :=
  match L.buffer with
  | none => (none, cache)
  | some data =>
    match resolveLegacy L.dims with
    | none => (none, cache)
    | some (num, dim, cm) =>
      if dim < 5 + 3 then (none, cache) else
      match inferNcKpts (dim : ℤ) with
      | none => (none, cache)
      | some (ncZ, kptsZ) =>
        let nc := ncZ.toNat
        let kpts := kptsZ.toNat
        let inW : ℚ := (net.width : ℚ)
        let inH : ℚ := (net.height : ℚ)
        let gain := min (inW / src_w) (inH / src_h)
        let pad_x := (1/2) * (inW - src_w * gain)
        let pad_y := (1/2) * (inH - src_h * gain)
        let dets := (List.range num).filterMap (fun i =>
          legacyCandidate (rowOf data cm dim num i) nc kpts
            inW inH gain pad_x pad_y src_w src_h conf_thr)
        let keep := nmsLoop iou_xyxy iou_thr (sortByConf PoseDet.conf dets)
        (some keep, update_pose_cache cache keep kpts)

/-- Caller-supplied parse configuration (`NvDsInferParseDetectionParams`):
configured class count and per-class pre-cluster thresholds. -/
structure DetParams where
  numClassesConfigured : ℕ
  perClassPreclusterThreshold : List ℚ

/-- `class_threshold` (yolo_pose_parser.cpp lines 273-281): the per-class
threshold when the class index is in bounds, else the first entry when the
vector is non-empty, else the fallback. -/
def class_threshold (params : DetParams) (cls : ℤ) (fallback : ℚ) : ℚ :=
  if 0 ≤ cls ∧ cls.toNat < params.perClassPreclusterThreshold.length then
    params.perClassPreclusterThreshold.getD cls.toNat 0
  else if params.perClassPreclusterThreshold ≠ [] then
    params.perClassPreclusterThreshold.getD 0 0
  else fallback

/-- `stride_matches` of `decode_yolo26_pose`: `d >= 6 && (d-6) % 3 == 0`. -/
def stride_matches (d : ℕ) : Bool := decide (6 ≤ d) && decide ((d - 6) % 3 = 0)

/-- Layout resolution of `decode_yolo26_pose` (lines 297-331): the
dimension passing `stride_matches` is the field stride, the other the
candidate count; rank 3 ignores the batch dimension.  Returns
`(num_preds, stride, channel_major)`. -/
def resolveY26 (dims : List ℕ) : Option (ℕ × ℕ × Bool) :=
  match dims with
  | [d0, d1] =>
      if stride_matches d1 then some (d0, d1, false)
      else if stride_matches d0 then some (d1, d0, true)
      else none
  | [_, d1, d2] =>
      if stride_matches d2 then some (d1, d2, false)
      else if stride_matches d1 then some (d2, d1, true)
      else none
  | _ => none

/-- An instance-mask output record (`NvDsInferInstanceMaskInfo`; the mask
pointer fields are always emitted null/zero and are omitted). -/
structure MaskObj where
  classId : ℕ
  left : ℚ
  top : ℚ
  width : ℚ
  height : ℚ
  conf : ℚ
deriving DecidableEq, Repr, Inhabited

/-- The per-candidate body of `decode_yolo26_pose` (lines 357-421): field 5
is an already-resolved class index (`lround`), field 4 the combined
confidence; candidates with a negative or out-of-range class index, or
with confidence below the per-class threshold, are skipped. -/
def y26Candidate (row : List ℚ) (kpts : ℕ) (params : DetParams)
    (conf_thr gain pad_x pad_y src_w src_h : ℚ) : Option (PoseDet × MaskObj) :=
  let x1 := row.getD 0 0; let y1 := row.getD 1 0
  let x2 := row.getD 2 0; let y2 := row.getD 3 0
  let obj := row.getD 4 0
  let cls := lround (row.getD 5 0)
  if cls < 0 then none else
  if 0 < params.numClassesConfigured ∧ (params.numClassesConfigured : ℤ) ≤ cls then none else
  let thr := class_threshold params cls conf_thr
  if obj < thr then none else
  let c1 := unletterbox x1 y1 gain pad_x pad_y src_w src_h
  let c2 := unletterbox x2 y2 gain pad_x pad_y src_w src_h
  let bx1 := min c1.1 c2.1
  let by1 := min c1.2 c2.2
  let bx2 := max c1.1 c2.1
  let by2 := max c1.2 c2.2
  let kp := (List.range kpts).flatMap (fun k =>
    let kx := row.getD (6 + 3 * k) 0
    let ky := row.getD (6 + 3 * k + 1) 0
    let ks := row.getD (6 + 3 * k + 2) 0
    let kc := unletterbox kx ky gain pad_x pad_y src_w src_h
    [kc.1, kc.2, ks])
  some ({ x1 := bx1, y1 := by1, x2 := bx2, y2 := by2,
          conf := obj, cls := cls, kpts := kp },
        { classId := cls.toNat, left := bx1, top := by1,
          width := max 0 (bx2 - bx1), height := max 0 (by2 - by1), conf := obj })

/-- `decode_yolo26_pose` (yolo_pose_parser.cpp lines 283-425): compact pose
convention.  Returns the decoded `(dets, objects)` lists (`none` on
failure) and the resulting cache state. -/
def decode_yolo26_pose (L : Layer) (net : NetInfo) (params : DetParams)
    (src_w src_h conf_thr : ℚ) (cache : PoseCache) :
    Option (List PoseDet × List MaskObj) × PoseCache :=
  match L.buffer with
  | none => (none, cache)
  | some data =>
    match resolveY26 L.dims with
    | none => (none, cache)
    | some (num, stride, cm) =>
      if stride < 6 ∨ (stride - 6) % 3 ≠ 0 then (none, cache) else
      let kpts := (stride - 6) / 3
      let inW : ℚ := (net.width : ℚ)
      let inH : ℚ := (net.height : ℚ)
      let gain := min (inW / src_w) (inH / src_h)
      let pad_x := (1/2) * (inW - src_w * gain)
      let pad_y := (1/2) * (inH - src_h * gain)
      let pairs := (List.range num).filterMap (fun i =>
        y26Candidate (rowOf data cm stride num i) kpts params
          conf_thr gain pad_x pad_y src_w src_h)
      let dets := pairs.map Prod.fst
      let objects := pairs.map Prod.snd
      (some (dets, objects), update_pose_cache cache dets kpts)

/-- The per-candidate body of the `_int8test` pose `decode`
(int8test yolo_pose_parser.cpp lines 133-181): same thresholding as the
legacy parser but the corner box and the keypoint coordinates are clamped
to `[0, netDim - 1]` in network space, with no letterbox inverse. -/
def int8Candidate (row : List ℚ) (nc kpts : ℕ) (inW inH conf_thr : ℚ) : Option PoseDet :=
  let cx := row.getD 0 0; let cy := row.getD 1 0
  let w := row.getD 2 0; let h := row.getD 3 0
  let obj := row.getD 4 0
  if obj < conf_thr then none else
  let best := if 1 < nc then argmaxLoop (fun c => row.getD (5 + c) 0) nc
              else ((0 : ℤ), (1 : ℚ))
  let conf := obj * best.2
  if conf < conf_thr then none else
  let x1 := cx - (1/2) * w; let y1 := cy - (1/2) * h
  let x2 := cx + (1/2) * w; let y2 := cy + (1/2) * h
  let kp := (List.range kpts).flatMap (fun k =>
    let kx := row.getD (5 + nc + 3 * k) 0
    let ky := row.getD (5 + nc + 3 * k + 1) 0
    let ks := row.getD (5 + nc + 3 * k + 2) 0
    [min (max kx 0) (inW - 1), min (max ky 0) (inH - 1), ks])
  some { x1 := min (max x1 0) (inW - 1), y1 := min (max y1 0) (inH - 1),
         x2 := min (max x2 0) (inW - 1), y2 := min (max y2 0) (inH - 1),
         conf := conf, cls := best.1, kpts := kp }

/-- `decode_all` from yolo_obb_parser.cpp: resolve the shape (rank 2 is
`[N, D]`, rank 3 `[B, N, D]`), infer `nc = D - 6` (at least 1), decode all
rows, then sort and run NMS. -/
def decode_all (L : Layer) (net : NetInfo) (conf_thr iou_thr : ℚ) :
    Option (List OBBDet) :=
  match L.buffer with
  | none => none
  | some data =>
    match (match L.dims with
           | [a, b] => some (a, b)
           | [_, d1, d2] => some (d1, d2)
           | _ => none : Option (ℕ × ℕ)) with
    | none => none
    | some (N, D) =>
      let nc : ℤ := if (D : ℤ) - 6 < 1 then 1 else (D : ℤ) - 6
      let inW : ℚ := (net.width : ℚ)
      let inH : ℚ := (net.height : ℚ)
      let dets := (List.range N).filterMap (fun i =>
        decode_one (rowOf data false D N i) (D : ℤ) nc inW inH conf_thr)
      some (nmsLoop iou_aabb iou_thr (sortByConf OBBDet.conf dets))

/-- An object-detection output record (`NvDsInferObjectDetectionInfo`). -/
structure ObjInfo where
  classId : ℕ
  left : ℚ
  top : ℚ
  width : ℚ
  height : ℚ
  conf : ℚ
deriving DecidableEq, Repr, Inhabited

/-- Conversion of a `PoseDet` to the detection output record
(parse_pose_internal lines 441-445). -/
def poseToObj (d : PoseDet) : ObjInfo :=
  { classId := d.cls.toNat, left := d.x1, top := d.y1,
    width := max 0 (d.x2 - d.x1), height := max 0 (d.y2 - d.y1), conf := d.conf }

/-- Conversion of an `OBBDet` to the detection output record
(parse_obb_internal lines 163-175): corners derived from center/size. -/
def obbToObj (d : OBBDet) : ObjInfo :=
  { classId := d.cls.toNat, left := d.cx - d.w * (1/2), top := d.cy - d.h * (1/2),
    width := max 0 d.w, height := max 0 d.h, conf := d.conf }

/-- Layer selection shared by all entry points: the first float-typed
layer, falling back to the first layer; `none` when the list is empty. -/
def pickLayer (layers : List Layer) : Option Layer :=
  match layers with
  | [] => none
  | l0 :: _ => some ((layers.find? (fun li => li.isFloat)).getD l0)

/-- `parse_pose_internal` (legacy pose entry point, lines 427-449), with
the caller-owned output list and the result cache threaded explicitly.
The C++ default arguments `conf_thr = 0.25`, `iou_thr = 0.45` are applied
here. -/
def parse_pose_internal (layers : List Layer) (net : NetInfo)
    (src_w src_h : ℚ) (objects : List ObjInfo) (cache : PoseCache) :
    Bool × List ObjInfo × PoseCache :=
  match pickLayer layers with
  | none => (false, objects, cache)
  | some L =>
    match decode L net src_w src_h (1/4) (9/20) cache with
    | (none, c2) => (false, objects, c2)
    | (some dets, c2) => (true, dets.map poseToObj, c2)

/-- `NvDsInferParseYolo26Pose` (lines 469-482), with the caller-owned
output list and the result cache threaded explicitly. -/
def parseYolo26Pose (layers : List Layer) (net : NetInfo) (params : DetParams)
    (src_w src_h : ℚ) (objects : List MaskObj) (cache : PoseCache) :
    Bool × List MaskObj × PoseCache :=
  match pickLayer layers with
  | none => (false, objects, cache)
  | some L =>
    match decode_yolo26_pose L net params src_w src_h (1/4) cache with
    | (none, c2) => (false, objects, c2)
    | (some (_, objs), c2) => (true, objs, c2)

/-- `parse_obb_internal` (yolo_obb_parser.cpp lines 150-177), with the
caller-owned output list threaded explicitly. -/
def parse_obb_internal (layers : List Layer) (net : NetInfo)
    (objects : List ObjInfo) : Bool × List ObjInfo :=
  match pickLayer layers with
  | none => (false, objects)
  | some L =>
    match decode_all L net (1/4) (9/20) with
    | none => (false, objects)
    | some dets => (true, dets.map obbToObj)

/-! ### Helper lemmas about the NMS pass -/

theorem nmsLoop_sublist (iou : α → α → ℚ) (thr : ℚ) :
    (l : List α) → (nmsLoop iou thr l).Sublist l
  | [] => by simp [nmsLoop]
  | d :: rest => by
      rw [nmsLoop]
      exact ((nmsLoop_sublist iou thr _).trans (List.filter_sublist rest)).cons₂ d
termination_by l => l.length
decreasing_by
  simp only [List.length_cons]
  exact Nat.lt_succ_of_le (List.length_filter_le _ _)

theorem nmsLoop_pairwise (iou : α → α → ℚ) (thr : ℚ) :
    (l : List α) → List.Pairwise (fun a b => iou a b ≤ thr) (nmsLoop iou thr l)
  | [] => by simp [nmsLoop]
  | d :: rest => by
      rw [nmsLoop]
      refine List.Pairwise.cons (fun e he => ?_) (nmsLoop_pairwise iou thr _)
      have h1 : e ∈ rest.filter (fun e => decide (iou d e ≤ thr)) :=
        (nmsLoop_sublist iou thr _).subset he
      exact of_decide_eq_true (List.mem_filter.mp h1).2
termination_by l => l.length
decreasing_by
  simp only [List.length_cons]
  exact Nat.lt_succ_of_le (List.length_filter_le _ _)

theorem nmsLoop_of_pairwise (iou : α → α → ℚ) (thr : ℚ) :
    (l : List α) → List.Pairwise (fun a b => iou a b ≤ thr) l → nmsLoop iou thr l = l
  | [], _ => by simp [nmsLoop]
  | d :: rest, h => by
      rw [nmsLoop]
      rw [List.pairwise_cons] at h
      have h1 : rest.filter (fun e => decide (iou d e ≤ thr)) = rest :=
        List.filter_eq_self.mpr (fun e he => decide_eq_true (h.1 e he))
      rw [h1, nmsLoop_of_pairwise iou thr rest h.2]

theorem sortByConf_pairwise (conf : α → ℚ) (l : List α) :
    List.Pairwise (fun a b => conf b ≤ conf a) (sortByConf conf l) := by
  have h := @List.sorted_mergeSort α (fun a b => decide (conf b ≤ conf a))
    (fun a b c hab hbc => by
      have h1 := of_decide_eq_true hab
      have h2 := of_decide_eq_true hbc
      exact decide_eq_true (le_trans h2 h1))
    (fun a b => by
      rcases le_total (conf b) (conf a) with h | h
      · simp [decide_eq_true h]
      · simp [decide_eq_true h])
    l
  exact h.imp (fun hab => of_decide_eq_true hab)

theorem sortByConf_eq_self (conf : α → ℚ) (l : List α)
    (h : List.Pairwise (fun a b => conf b ≤ conf a) l) : sortByConf conf l = l :=
  List.mergeSort_of_sorted (h.imp (fun hab => decide_eq_true hab))

theorem mem_sortByConf (conf : α → ℚ) (l : List α) (a : α) :
    a ∈ sortByConf conf l ↔ a ∈ l := List.mem_mergeSort

theorem scanK_none (dim : ℤ) :
    ∀ (fuel g : ℕ), (∀ j : ℕ, j < fuel → dim - 5 - 3 * ((g : ℤ) + j) < 0) →
    scanK dim g fuel none = none := by
  intro fuel
  induction fuel with
  | zero => intro g _; rfl
  | succ n ih =>
      intro g h
      rw [scanK]
      have h0 : dim - 5 - 3 * (g : ℤ) < 0 := by
        have := h 0 (Nat.succ_pos n)
        simpa using this
      rw [if_pos h0]
      exact ih (g + 1) (fun j hj => by
        have := h (j + 1) (Nat.succ_lt_succ hj)
        push_cast at this ⊢
        linarith)

theorem scanK_some_exact (dim : ℤ) (f : ℤ × ℤ) :
    ∀ (fuel g : ℕ) (j : ℕ), j < fuel → dim = 5 + 3 * ((g : ℤ) + j) →
    scanK dim g fuel (some f) = some (0, (g : ℤ) + j) := by
  intro fuel
  induction fuel with
  | zero => intro g j hj; omega
  | succ n ih =>
      intro g j hj hdim
      rw [scanK]
      rcases Nat.eq_zero_or_pos j with hj0 | hjpos
      · subst hj0
        have hrem : dim - 5 - 3 * (g : ℤ) = 0 := by omega
        rw [if_neg (by omega), if_pos hrem]
        simp
      · have hrem : 0 < dim - 5 - 3 * (g : ℤ) := by omega
        have hj1 : (1 : ℕ) ≤ j := hjpos
        have hcast : ((j - 1 : ℕ) : ℤ) = (j : ℤ) - 1 := by
          omega
        have h2 := ih (g + 1) (j - 1) (by omega)
          (by push_cast [hcast]; linarith [hdim])
        rw [if_neg (by omega), if_neg (by omega), h2]
        congr 1
        push_cast [hcast]
        ring_nf

theorem scanK_some_noexact (dim : ℤ) (f : ℤ × ℤ) :
    ∀ (fuel g : ℕ), (∀ j : ℕ, j < fuel → dim ≠ 5 + 3 * ((g : ℤ) + j)) →
    scanK dim g fuel (some f) = some f := by
  intro fuel
  induction fuel with
  | zero => intro g _; rfl
  | succ n ih =>
      intro g h
      rw [scanK]
      have h0 : dim - 5 - 3 * (g : ℤ) ≠ 0 := by
        intro hc
        exact h 0 (Nat.succ_pos n) (by push_cast; linarith)
      by_cases hneg : dim - 5 - 3 * (g : ℤ) < 0
      · rw [if_pos hneg]
        exact ih (g + 1) (fun j hj => by
          have := h (j + 1) (Nat.succ_lt_succ hj)
          push_cast at this ⊢
          intro hc; exact this (by linarith))
      · rw [if_neg hneg, if_neg h0]
        exact ih (g + 1) (fun j hj => by
          have := h (j + 1) (Nat.succ_lt_succ hj)
          push_cast at this ⊢
          intro hc; exact this (by linarith))

theorem inferNcKpts_exact (dim k : ℤ) (h1 : 1 ≤ k) (h50 : k ≤ 50)
    (hdim : dim = 5 + 3 * k) : inferNcKpts dim = some (0, k) := by
  rw [inferNcKpts, show (50 : ℕ) = 49 + 1 from rfl, scanK]
  rcases eq_or_lt_of_le h1 with h1e | h1lt
  · have hrem : dim - 5 - 3 * ((1 : ℕ) : ℤ) = 0 := by push_cast; omega
    rw [if_neg (by push_cast; omega), if_pos hrem]
    simp; omega
  · have hrem : 0 < dim - 5 - 3 * ((1 : ℕ) : ℤ) := by push_cast; omega
    rw [if_neg (by omega), if_neg (by omega)]
    have h2 := scanK_some_exact dim (dim - 5 - 3 * ((1 : ℕ) : ℤ), ((1 : ℕ) : ℤ))
      49 2 (k - 2).toNat (by omega) (by push_cast; omega)
    simp only [h2, Option.some.injEq, Prod.mk.injEq, Nat.cast_ofNat, true_and]
    omega

theorem inferNcKpts_fallback (dim : ℤ) (h8 : 8 ≤ dim)
    (h : ∀ k : ℤ, 1 ≤ k → k ≤ 50 → dim ≠ 5 + 3 * k) :
    inferNcKpts dim = some (dim - 8, 1) := by
  rw [inferNcKpts, show (50 : ℕ) = 49 + 1 from rfl, scanK]
  have hne : dim - 5 - 3 * ((1 : ℕ) : ℤ) ≠ 0 := by
    have := h 1 (by norm_num) (by norm_num)
    push_cast
    omega
  rw [if_neg (by push_cast; omega), if_neg hne]
  have h2 := scanK_some_noexact dim (dim - 5 - 3 * ((1 : ℕ) : ℤ), ((1 : ℕ) : ℤ)) 49 2
    (fun j hj => by
      have := h (2 + (j : ℤ)) (by omega) (by omega)
      push_cast
      omega)
  have hstep : scanK dim (1 + 1) 49
      (match (none : Option (ℤ × ℤ)) with
       | none => some (dim - 5 - 3 * ((1 : ℕ) : ℤ), ((1 : ℕ) : ℤ))
       | some f => some f)
      = scanK dim 2 49 (some (dim - 5 - 3 * ((1 : ℕ) : ℤ), ((1 : ℕ) : ℤ))) := rfl
  rw [hstep, h2, Option.some.injEq, Prod.mk.injEq]
  constructor
  · push_cast
    ring
  · norm_num

theorem inferNcKpts_isNone (dim : ℤ)
    (h : ∀ k : ℤ, 1 ≤ k → k ≤ 50 → dim - 5 - 3 * k < 0) :
    inferNcKpts dim = none := by
  rw [inferNcKpts]
  exact scanK_none dim 50 1 (fun j hj => by
    have := h (1 + (j : ℤ)) (by omega) (by omega)
    push_cast
    omega)

theorem lround_intCast (n : ℤ) : lround (n : ℚ) = n := by
  have hfl : ⌊(1/2 : ℚ)⌋ = 0 := by
    rw [Int.floor_eq_iff]
    norm_num
  have hcl : ⌈(-(1/2) : ℚ)⌉ = 0 := by
    rw [Int.ceil_eq_iff]
    norm_num
  rcases le_or_lt 0 n with h | h
  · rw [lround, if_pos (by exact_mod_cast h), add_comm, Int.floor_add_int, hfl, zero_add]
  · rw [lround, if_neg (by exact_mod_cast not_le.mpr h), sub_eq_add_neg, add_comm,
      Int.ceil_add_int, hcl, zero_add]

theorem flatMap_triple_length (f : ℕ → List ℚ) (h : ∀ k, (f k).length = 3) :
    ∀ n : ℕ, ((List.range n).flatMap f).length = 3 * n := by
  intro n
  induction n with
  | zero => simp
  | succ m ih =>
      rw [List.range_succ, List.flatMap_append]
      simp [ih, h m]
      ring

theorem legacyCandidate_kpts_length
    (row : List ℚ) (nc kpts : ℕ) (inW inH gain pad_x pad_y src_w src_h thr : ℚ)
    (d : PoseDet) (h : legacyCandidate row nc kpts inW inH gain pad_x pad_y src_w src_h thr = some d) :
    d.kpts.length = 3 * kpts := by
  simp only [legacyCandidate] at h
  split at h
  · exact absurd h (by simp)
  · split at h <;>
    · split at h
      · exact absurd h (by simp)
      · injection h with h
        subst h
        refine flatMap_triple_length _ (fun k => ?_) kpts
        rfl

theorem y26Candidate_kpts_length
    (row : List ℚ) (kpts : ℕ) (params : DetParams)
    (conf_thr gain pad_x pad_y src_w src_h : ℚ) (d : PoseDet) (o : MaskObj)
    (h : y26Candidate row kpts params conf_thr gain pad_x pad_y src_w src_h = some (d, o)) :
    d.kpts.length = 3 * kpts := by
  simp only [y26Candidate] at h
  split at h
  · exact absurd h (by simp)
  · split at h
    · exact absurd h (by simp)
    · split at h
      · exact absurd h (by simp)
      · injection h with h
        rw [Prod.mk.injEq] at h
        rw [← h.1]
        refine flatMap_triple_length _ (fun k => ?_) kpts
        rfl

theorem update_pose_cache_flat_length (c : PoseCache) (dets : List PoseDet) (k : ℕ)
    (h : ∀ d ∈ dets, d.kpts.length = 3 * k) :
    (update_pose_cache c dets k).flat.length = dets.length * (5 + 3 * k) := by
  rw [update_pose_cache]
  induction dets with
  | nil => simp
  | cons d rest ih =>
      simp only [List.flatMap_cons, List.length_append, List.length_cons]
      rw [ih (fun e he => h e (List.mem_cons_of_mem d he))]
      simp [h d (List.mem_cons_self d rest)]
      ring

theorem decode_shape (L : Layer) (net : NetInfo)
    (src_w src_h conf_thr iou_thr : ℚ) (cache : PoseCache) :
    (∃ keep : List PoseDet, ∃ kpts : ℕ,
      decode L net src_w src_h conf_thr iou_thr cache
        = (some keep, update_pose_cache cache keep kpts) ∧
      ∀ d ∈ keep, d.kpts.length = 3 * kpts) ∨
    decode L net src_w src_h conf_thr iou_thr cache = (none, cache) := by
  rw [decode]
  rcases L.buffer with _ | data
  · right; rfl
  · rcases resolveLegacy L.dims with _ | ⟨num, dim, cm⟩
    · right; rfl
    · by_cases hd : dim < 5 + 3
      · right
        simp only [if_pos hd]
      · simp only [if_neg hd]
        rcases inferNcKpts (dim : ℤ) with _ | ⟨ncZ, kptsZ⟩
        · right; rfl
        · left
          refine ⟨_, kptsZ.toNat, rfl, ?_⟩
          intro d hd2
          have h3 := (nmsLoop_sublist iou_xyxy iou_thr _).subset hd2
          rw [mem_sortByConf, List.mem_filterMap] at h3
          obtain ⟨i, _, hc⟩ := h3
          exact legacyCandidate_kpts_length _ _ _ _ _ _ _ _ _ _ _ _ hc

theorem decode_cache_of_fail (L : Layer) (net : NetInfo)
    (src_w src_h conf_thr iou_thr : ℚ) (cache : PoseCache)
    (h : (decode L net src_w src_h conf_thr iou_thr cache).1 = none) :
    (decode L net src_w src_h conf_thr iou_thr cache).2 = cache := by
  rcases decode_shape L net src_w src_h conf_thr iou_thr cache with ⟨keep, kpts, heq, _⟩ | heq
  · rw [heq] at h
    simp at h
  · rw [heq]

theorem decode_success_shape (L : Layer) (net : NetInfo)
    (src_w src_h conf_thr iou_thr : ℚ) (cache : PoseCache)
    (dets : List PoseDet) (cache2 : PoseCache)
    (h : decode L net src_w src_h conf_thr iou_thr cache = (some dets, cache2)) :
    ∃ kpts : ℕ, cache2 = update_pose_cache cache dets kpts ∧
      ∀ d ∈ dets, d.kpts.length = 3 * kpts := by
  rcases decode_shape L net src_w src_h conf_thr iou_thr cache with ⟨keep, kpts, heq, hlen⟩ | heq
  · rw [heq] at h
    rw [Prod.mk.injEq, Option.some.injEq] at h
    refine ⟨kpts, ?_, ?_⟩
    · rw [← h.2, h.1]
    · rw [← h.1]
      exact hlen
  · rw [heq] at h
    simp at h

theorem resolveY26_matches (dims : List ℕ) (num stride : ℕ) (cm : Bool)
    (h : resolveY26 dims = some (num, stride, cm)) : stride_matches stride = true := by
  rcases dims with _ | ⟨d0, _ | ⟨d1, _ | ⟨d2, rest⟩⟩⟩
  · simp [resolveY26] at h
  · simp [resolveY26] at h
  · simp only [resolveY26] at h
    by_cases h1 : stride_matches d1
    · rw [if_pos h1] at h
      simp only [Option.some.injEq, Prod.mk.injEq] at h
      rw [← h.2.1]
      exact h1
    · rw [if_neg h1] at h
      by_cases h0 : stride_matches d0
      · rw [if_pos h0] at h
        simp only [Option.some.injEq, Prod.mk.injEq] at h
        rw [← h.2.1]
        exact h0
      · rw [if_neg h0] at h
        simp at h
  · rcases rest with _ | ⟨d3, rest2⟩
    · simp only [resolveY26] at h
      by_cases h2 : stride_matches d2
      · rw [if_pos h2] at h
        simp only [Option.some.injEq, Prod.mk.injEq] at h
        rw [← h.2.1]
        exact h2
      · rw [if_neg h2] at h
        by_cases h1 : stride_matches d1
        · rw [if_pos h1] at h
          simp only [Option.some.injEq, Prod.mk.injEq] at h
          rw [← h.2.1]
          exact h1
        · rw [if_neg h1] at h
          simp at h
    · simp [resolveY26] at h

theorem stride_matches_not_recheck (stride : ℕ) (h : stride_matches stride = true) :
    ¬(stride < 6 ∨ (stride - 6) % 3 ≠ 0) := by
  simp only [stride_matches, Bool.and_eq_true, decide_eq_true_eq] at h
  push_neg
  omega

theorem decode_y26_shape (L : Layer) (net : NetInfo) (params : DetParams)
    (src_w src_h conf_thr : ℚ) (cache : PoseCache) :
    (∃ pairs : List (PoseDet × MaskObj), ∃ kpts : ℕ,
      decode_yolo26_pose L net params src_w src_h conf_thr cache
        = (some (pairs.map Prod.fst, pairs.map Prod.snd),
           update_pose_cache cache (pairs.map Prod.fst) kpts) ∧
      ∀ p ∈ pairs, p.1.kpts.length = 3 * kpts) ∨
    decode_yolo26_pose L net params src_w src_h conf_thr cache = (none, cache) := by
  rw [decode_yolo26_pose]
  rcases L.buffer with _ | data
  · right; rfl
  · rcases hr : resolveY26 L.dims with _ | ⟨num, stride, cm⟩
    · right; rfl
    · have hm := resolveY26_matches L.dims num stride cm hr
      have hc := stride_matches_not_recheck stride hm
      simp only [if_neg hc]
      left
      refine ⟨_, (stride - 6) / 3, rfl, ?_⟩
      intro p hp
      rw [List.mem_filterMap] at hp
      obtain ⟨i, _, hcand⟩ := hp
      exact y26Candidate_kpts_length _ _ _ _ _ _ _ _ _ _ _
        (by rw [hcand])

theorem decode_y26_cache_of_fail (L : Layer) (net : NetInfo) (params : DetParams)
    (src_w src_h conf_thr : ℚ) (cache : PoseCache)
    (h : (decode_yolo26_pose L net params src_w src_h conf_thr cache).1 = none) :
    (decode_yolo26_pose L net params src_w src_h conf_thr cache).2 = cache := by
  rcases decode_y26_shape L net params src_w src_h conf_thr cache with
    ⟨pairs, kpts, heq, _⟩ | heq
  · rw [heq] at h
    simp at h
  · rw [heq]

theorem decode_y26_success_shape (L : Layer) (net : NetInfo) (params : DetParams)
    (src_w src_h conf_thr : ℚ) (cache : PoseCache)
    (dets : List PoseDet) (objs : List MaskObj) (cache2 : PoseCache)
    (h : decode_yolo26_pose L net params src_w src_h conf_thr cache
          = (some (dets, objs), cache2)) :
    ∃ kpts : ℕ, cache2 = update_pose_cache cache dets kpts ∧
      ∀ d ∈ dets, d.kpts.length = 3 * kpts := by
  rcases decode_y26_shape L net params src_w src_h conf_thr cache with
    ⟨pairs, kpts, heq, hlen⟩ | heq
  · rw [heq] at h
    rw [Prod.mk.injEq, Option.some.injEq, Prod.mk.injEq] at h
    refine ⟨kpts, ?_, ?_⟩
    · rw [← h.2, h.1.1]
    · rw [← h.1.1]
      intro d hd2
      rw [List.mem_map] at hd2
      obtain ⟨p, hp, hpd⟩ := hd2
      rw [← hpd]
      exact hlen p hp
  · rw [heq] at h
    simp at h

theorem decode_y26_isSome (L : Layer) (net : NetInfo) (params : DetParams)
    (src_w src_h conf_thr : ℚ) (cache : PoseCache) (data : List ℚ)
    (num stride : ℕ) (cm : Bool)
    (hb : L.buffer = some data) (hr : resolveY26 L.dims = some (num, stride, cm)) :
    ((decode_yolo26_pose L net params src_w src_h conf_thr cache).1).isSome = true := by
  have hm := resolveY26_matches L.dims num stride cm hr
  have hc := stride_matches_not_recheck stride hm
  simp only [decode_yolo26_pose, hb, hr, if_neg hc]
  rfl

theorem decode_fail_buffer (L : Layer) (net : NetInfo)
    (src_w src_h conf_thr iou_thr : ℚ) (cache : PoseCache) (hb : L.buffer = none) :
    decode L net src_w src_h conf_thr iou_thr cache = (none, cache) := by
  simp only [decode, hb]

theorem decode_fail_resolve (L : Layer) (net : NetInfo)
    (src_w src_h conf_thr iou_thr : ℚ) (cache : PoseCache) (data : List ℚ)
    (hb : L.buffer = some data) (hr : resolveLegacy L.dims = none) :
    decode L net src_w src_h conf_thr iou_thr cache = (none, cache) := by
  simp only [decode, hb, hr]

theorem decode_fail_smallDim (L : Layer) (net : NetInfo)
    (src_w src_h conf_thr iou_thr : ℚ) (cache : PoseCache) (data : List ℚ)
    (num dim : ℕ) (cm : Bool)
    (hb : L.buffer = some data) (hr : resolveLegacy L.dims = some (num, dim, cm))
    (hd : dim < 5 + 3) :
    decode L net src_w src_h conf_thr iou_thr cache = (none, cache) := by
  simp only [decode, hb, hr, if_pos hd]

theorem decode_fail_infer (L : Layer) (net : NetInfo)
    (src_w src_h conf_thr iou_thr : ℚ) (cache : PoseCache) (data : List ℚ)
    (num dim : ℕ) (cm : Bool)
    (hb : L.buffer = some data) (hr : resolveLegacy L.dims = some (num, dim, cm))
    (hd : ¬dim < 5 + 3) (hi : inferNcKpts (dim : ℤ) = none) :
    decode L net src_w src_h conf_thr iou_thr cache = (none, cache) := by
  simp only [decode, hb, hr, if_neg hd, hi]

theorem decode_y26_fail_buffer (L : Layer) (net : NetInfo) (params : DetParams)
    (src_w src_h conf_thr : ℚ) (cache : PoseCache) (hb : L.buffer = none) :
    decode_yolo26_pose L net params src_w src_h conf_thr cache = (none, cache) := by
  simp only [decode_yolo26_pose, hb]

theorem decode_y26_fail_resolve (L : Layer) (net : NetInfo) (params : DetParams)
    (src_w src_h conf_thr : ℚ) (cache : PoseCache) (data : List ℚ)
    (hb : L.buffer = some data) (hr : resolveY26 L.dims = none) :
    decode_yolo26_pose L net params src_w src_h conf_thr cache = (none, cache) := by
  simp only [decode_yolo26_pose, hb, hr]

theorem decode_all_fail_buffer (L : Layer) (net : NetInfo)
    (conf_thr iou_thr : ℚ) (hb : L.buffer = none) :
    decode_all L net conf_thr iou_thr = none := by
  simp only [decode_all, hb]

theorem decode_all_fail_rank (L : Layer) (net : NetInfo)
    (conf_thr iou_thr : ℚ) (data : List ℚ) (hb : L.buffer = some data)
    (hrank : L.dims.length ≠ 2 ∧ L.dims.length ≠ 3) :
    decode_all L net conf_thr iou_thr = none := by
  rcases L with ⟨fl, dims, buf⟩
  simp only at hb
  subst hb
  rcases dims with _ | ⟨d0, _ | ⟨d1, _ | ⟨d2, _ | ⟨d3, rest⟩⟩⟩⟩
  · simp only [decode_all]
  · simp only [decode_all]
  · simp at hrank
  · simp at hrank
  · simp only [decode_all]

theorem resolveLegacy_none_iff (dims : List ℕ) :
    resolveLegacy dims = none ↔ dims.length ≠ 2 ∧ dims.length ≠ 3 := by
  rcases dims with _ | ⟨d0, _ | ⟨d1, _ | ⟨d2, _ | ⟨d3, rest⟩⟩⟩⟩
  · simp [resolveLegacy]
  · simp [resolveLegacy]
  · constructor
    · intro h
      rw [resolveLegacy] at h
      by_cases hab : d0 < d1
      · rw [if_pos hab] at h; exact absurd h (by simp)
      · rw [if_neg hab] at h; exact absurd h (by simp)
    · intro h
      simp at h
  · simp [resolveLegacy]
  · simp [resolveLegacy]

/-! ### Claim theorems -/

/-- Claim C1: for an oriented-box row with field stride `D >= 6 + nc`, the
field-ordering disambiguator of `decode_one` selects the ordering
`[field4 = rotation, field5 = objectness]` when only that ordering passes
the range heuristic (rotation magnitude at most 3.5, objectness in
`[0, 1.0001]`), selects the swapped ordering when only the swapped one
passes, and defaults to `[rotation, objectness]` when both or neither
pass; `decode_one` uses the selected rotation for the emitted detection. -/
theorem claim_C1_obb_field_ordering (p4 p5 : ℚ) :
    ((|p4| ≤ 7/2 ∧ 0 ≤ p5 ∧ p5 ≤ 10001/10000) →
     ¬(|p5| ≤ 7/2 ∧ 0 ≤ p4 ∧ p4 ≤ 10001/10000) →
      chooseThetaObj p4 p5 = (p4, p5)) ∧
    (¬(|p4| ≤ 7/2 ∧ 0 ≤ p5 ∧ p5 ≤ 10001/10000) →
     (|p5| ≤ 7/2 ∧ 0 ≤ p4 ∧ p4 ≤ 10001/10000) →
      chooseThetaObj p4 p5 = (p5, p4)) ∧
    (((|p4| ≤ 7/2 ∧ 0 ≤ p5 ∧ p5 ≤ 10001/10000) ↔
      (|p5| ≤ 7/2 ∧ 0 ≤ p4 ∧ p4 ≤ 10001/10000)) →
      chooseThetaObj p4 p5 = (p4, p5)) ∧
    (∀ (p : List ℚ) (D nc : ℤ) (inW inH thr : ℚ) (d : OBBDet),
      6 + nc ≤ D → decode_one p D nc inW inH thr = some d →
      d.theta = (chooseThetaObj (p.getD 4 0) (p.getD 5 0)).1) := by
  have e0 : ((decide (|p4| ≤ 7/2) && decide (0 ≤ p5) && decide (p5 ≤ 10001/10000)) = true)
      ↔ (|p4| ≤ 7/2 ∧ 0 ≤ p5 ∧ p5 ≤ 10001/10000) := by
    simp [and_assoc]
  have e1 : ((decide (|p5| ≤ 7/2) && decide (0 ≤ p4) && decide (p4 ≤ 10001/10000)) = true)
      ↔ (|p5| ≤ 7/2 ∧ 0 ≤ p4 ∧ p4 ≤ 10001/10000) := by
    simp [and_assoc]
  refine ⟨?_, ?_, ?_, ?_⟩
  · intro hA hnB
    have b0 := e0.mpr hA
    have b1 : (decide (|p5| ≤ 7/2) && decide (0 ≤ p4) && decide (p4 ≤ 10001/10000)) = false :=
      Bool.eq_false_iff.mpr (fun ht => hnB (e1.mp ht))
    simp [chooseThetaObj, b0, b1]
  · intro hnA hB
    have b1 := e1.mpr hB
    have b0 : (decide (|p4| ≤ 7/2) && decide (0 ≤ p5) && decide (p5 ≤ 10001/10000)) = false :=
      Bool.eq_false_iff.mpr (fun ht => hnA (e0.mp ht))
    simp [chooseThetaObj, b0, b1]
  · intro hiff
    by_cases hA : (|p4| ≤ 7/2 ∧ 0 ≤ p5 ∧ p5 ≤ 10001/10000)
    · have b0 := e0.mpr hA
      have b1 := e1.mpr (hiff.mp hA)
      simp [chooseThetaObj, b0, b1]
    · have b0 : (decide (|p4| ≤ 7/2) && decide (0 ≤ p5) && decide (p5 ≤ 10001/10000)) = false :=
        Bool.eq_false_iff.mpr (fun ht => hA (e0.mp ht))
      have b1 : (decide (|p5| ≤ 7/2) && decide (0 ≤ p4) && decide (p4 ≤ 10001/10000)) = false :=
        Bool.eq_false_iff.mpr (fun ht => hA (hiff.mpr (e1.mp ht)))
      simp [chooseThetaObj, b0, b1]
  · intro p D nc inW inH thr d hD h
    simp only [decode_one, if_neg (not_lt.mpr hD)] at h
    by_cases h1 : (chooseThetaObj (p.getD 4 0) (p.getD 5 0)).2 < thr
    · rw [if_pos h1] at h
      exact absurd h (by simp)
    · rw [if_neg h1] at h
      by_cases h2 : (chooseThetaObj (p.getD 4 0) (p.getD 5 0)).2 *
          (if 1 < nc then argmaxLoop (fun c => p.getD (6 + c) 0) nc.toNat
           else ((0 : ℤ), (1 : ℚ))).2 < thr
      · rw [if_pos h2] at h
        exact absurd h (by simp)
      · rw [if_neg h2] at h
        injection h with h
        rw [← h]

/-- Witness for C1: a row where only ordering 0 passes selects ordering 0;
a row where only ordering 1 passes selects ordering 1; a concrete
successful `decode_one` carries the selected rotation through. -/
theorem claim_C1_obb_field_ordering_witness :
    chooseThetaObj 2 (1/2) = (2, 1/2) ∧
    chooseThetaObj (1/2) 2 = (2, 1/2) ∧
    ({ cx := 1, cy := 2, w := 3, h := 4, theta := 1, conf := 9/10, cls := 0 } : OBBDet).theta
      = (chooseThetaObj 1 (9/10)).1 := by
  refine ⟨?_, ?_, ?_⟩
  · exact (claim_C1_obb_field_ordering 2 (1/2)).1 (by norm_num) (by norm_num)
  · exact (claim_C1_obb_field_ordering (1/2) 2).2.1 (by norm_num) (by norm_num)
  · refine (claim_C1_obb_field_ordering 1 (9/10)).2.2.2
      [1, 2, 3, 4, 1, 9/10, 1] 7 1 640 640 (1/4) _ (by norm_num) ?_
    norm_num [decode_one, chooseThetaObj, clampf]

/-- Claim C4: the suppressor sorts by confidence descending, then greedily
keeps each surviving detection and suppresses a later surviving detection
exactly when its IoU with the kept one strictly exceeds the threshold; a
pair at IoU exactly equal to the threshold is fully kept, a pair strictly
above it loses its lower-confidence member. -/
theorem claim_C4_nms_greedy_strict (iou_thr : ℚ) :
    (∀ (d : PoseDet) (rest : List PoseDet),
      nmsLoop iou_xyxy iou_thr (d :: rest)
        = d :: nmsLoop iou_xyxy iou_thr
            (rest.filter (fun e => decide (¬(iou_thr < iou_xyxy d e))))) ∧
    (∀ a b : PoseDet, b.conf ≤ a.conf →
      (iou_xyxy a b = iou_thr → run_nms iou_thr [a, b] = [a, b]) ∧
      (iou_thr < iou_xyxy a b → run_nms iou_thr [a, b] = [a])) := by
  constructor
  · intro d rest
    rw [nmsLoop]
    congr 1
    refine congrArg _ (List.filter_congr ?_)
    intro e _
    simp [decide_eq_decide, not_lt]
  · intro a b hconf
    have hsort : sortByConf PoseDet.conf [a, b] = [a, b] :=
      sortByConf_eq_self PoseDet.conf [a, b] (by simp [List.pairwise_cons, hconf])
    constructor
    · intro hiou
      rw [run_nms, hsort, nmsLoop]
      have hf : [b].filter (fun e => decide (iou_xyxy a e ≤ iou_thr)) = [b] := by
        simp [List.filter, hiou]
      rw [hf, nmsLoop]
      simp [nmsLoop]
    · intro hiou
      rw [run_nms, hsort, nmsLoop]
      have hf : [b].filter (fun e => decide (iou_xyxy a e ≤ iou_thr)) = [] := by
        simp [List.filter, not_le.mpr hiou]
      rw [hf]
      simp [nmsLoop]

/-- Witness for C4: two concrete overlapping boxes with IoU exactly
`1000000/3000001`; at that exact threshold both are kept, at the lower
threshold `1/4` the lower-confidence box is suppressed. -/
theorem claim_C4_nms_greedy_strict_witness :
    run_nms (1000000/3000001)
      [{ x1 := 0, y1 := 0, x2 := 2, y2 := 1, conf := 1, cls := 0, kpts := [] },
       { x1 := 1, y1 := 0, x2 := 3, y2 := 1, conf := 1/2, cls := 0, kpts := [] }]
      = [{ x1 := 0, y1 := 0, x2 := 2, y2 := 1, conf := 1, cls := 0, kpts := [] },
         { x1 := 1, y1 := 0, x2 := 3, y2 := 1, conf := 1/2, cls := 0, kpts := [] }] ∧
    run_nms (1/4)
      [{ x1 := 0, y1 := 0, x2 := 2, y2 := 1, conf := 1, cls := 0, kpts := [] },
       { x1 := 1, y1 := 0, x2 := 3, y2 := 1, conf := 1/2, cls := 0, kpts := [] }]
      = [{ x1 := 0, y1 := 0, x2 := 2, y2 := 1, conf := 1, cls := 0, kpts := [] }] := by
  constructor
  · exact ((claim_C4_nms_greedy_strict (1000000/3000001)).2 _ _ (by norm_num)).1
      (by norm_num [iou_xyxy])
  · exact ((claim_C4_nms_greedy_strict (1/4)).2 _ _ (by norm_num)).2
      (by norm_num [iou_xyxy])

/-- Claim C5: the letterbox inverse computes
`((x - padX)/scale, (y - padY)/scale)` with each axis clamped to
`[0, sourceDim - 1]`; consequently forward-letterboxing a source point and
inverting recovers the point up to clamping at the source edges. -/
theorem claim_C5_letterbox_roundtrip
    (netW netH src_w src_h gain pad_x pad_y sx sy fx fy : ℚ)
    (hsw : 0 < src_w) (hsh : 0 < src_h) (hnw : 0 < netW) (hnh : 0 < netH)
    (hg : gain = min (netW / src_w) (netH / src_h))
    (_hpx : pad_x = (netW - src_w * gain) / 2)
    (_hpy : pad_y = (netH - src_h * gain) / 2)
    (hfx : fx = sx * gain + pad_x) (hfy : fy = sy * gain + pad_y)
    (_hin : 0 ≤ fx ∧ fx ≤ netW ∧ 0 ≤ fy ∧ fy ≤ netH) :
    (∀ px py : ℚ, unletterbox px py gain pad_x pad_y src_w src_h
        = (min (max ((px - pad_x) / gain) 0) (src_w - 1),
           min (max ((py - pad_y) / gain) 0) (src_h - 1))) ∧
    unletterbox fx fy gain pad_x pad_y src_w src_h
      = (min (max sx 0) (src_w - 1), min (max sy 0) (src_h - 1)) := by
  have hgain : 0 < gain := by
    rw [hg]
    exact lt_min (div_pos hnw hsw) (div_pos hnh hsh)
  constructor
  · intro px py
    rfl
  · rw [unletterbox, hfx, hfy]
    rw [add_sub_cancel_right, add_sub_cancel_right]
    rw [mul_div_cancel_right₀ sx (ne_of_gt hgain),
        mul_div_cancel_right₀ sy (ne_of_gt hgain)]

/-- Witness for C5: network 640 times 640, source 1280 times 1280
(scale 1/2, no padding); the source point (5, 5) maps forward to
(5/2, 5/2) and the inverse transform recovers (5, 5). -/
theorem claim_C5_letterbox_roundtrip_witness :
    unletterbox (5/2) (5/2) (1/2) 0 0 1280 1280
      = (min (max 5 0) (1280 - 1), min (max 5 0) (1280 - 1)) :=
  (claim_C5_letterbox_roundtrip 640 640 1280 1280 (1/2) 0 0 5 5 (5/2) (5/2)
    (by norm_num) (by norm_num) (by norm_num) (by norm_num)
    (by norm_num) (by norm_num) (by norm_num) (by norm_num) (by norm_num)
    (by norm_num)).2

/-- Claim C6: the NMS pass is idempotent - running it again on its own
kept output changes nothing. -/
theorem claim_C6_nms_idempotent (iou_thr : ℚ) (dets : List PoseDet) :
    run_nms iou_thr (run_nms iou_thr dets) = run_nms iou_thr dets := by
  unfold run_nms
  have hs : List.Pairwise (fun a b => PoseDet.conf b ≤ PoseDet.conf a)
      (nmsLoop iou_xyxy iou_thr (sortByConf PoseDet.conf dets)) :=
    List.Pairwise.sublist (nmsLoop_sublist _ _ _)
      (sortByConf_pairwise PoseDet.conf dets)
  rw [sortByConf_eq_self _ _ hs]
  exact nmsLoop_of_pairwise _ _ _ (nmsLoop_pairwise _ _ _)

/-- Claim C2: for field stride `dim >= 8`, the legacy `(nc, kpts)` scan
over guesses `k = 1..50` of `dim = 5 + nc + 3k` returns `nc = 0` with the
exact-solution `k` when one exists, otherwise the smallest guess `k = 1`
with the non-negative `nc = dim - 8`; and the decode call fails when no
guess in range yields a non-negative class count. -/
theorem claim_C2_legacy_schema_scan (dim : ℤ) :
    (8 ≤ dim → ∀ k : ℤ, 1 ≤ k → k ≤ 50 → dim = 5 + 3 * k →
      inferNcKpts dim = some (0, k)) ∧
    (8 ≤ dim → (∀ k : ℤ, 1 ≤ k → k ≤ 50 → dim ≠ 5 + 3 * k) →
      inferNcKpts dim = some (dim - 8, 1)) ∧
    (∀ (L : Layer) (net : NetInfo) (src_w src_h conf_thr iou_thr : ℚ)
        (cache : PoseCache) (data : List ℚ) (num dimN : ℕ) (cm : Bool),
      L.buffer = some data → resolveLegacy L.dims = some (num, dimN, cm) →
      (∀ k : ℤ, 1 ≤ k → k ≤ 50 → (dimN : ℤ) - 5 - 3 * k < 0) →
      decode L net src_w src_h conf_thr iou_thr cache = (none, cache)) := by
  refine ⟨?_, ?_, ?_⟩
  · intro _ k h1 h50 hdim
    exact inferNcKpts_exact dim k h1 h50 hdim
  · intro h8 hno
    exact inferNcKpts_fallback dim h8 hno
  · intro L net src_w src_h conf_thr iou_thr cache data num dimN cm hb hr hall
    have hd : dimN < 5 + 3 := by
      have := hall 1 (by norm_num) (by norm_num)
      omega
    exact decode_fail_smallDim L net src_w src_h conf_thr iou_thr cache data
      num dimN cm hb hr hd

/-- Witness for C2: stride 14 has the exact solution `k = 3` (nc 0);
stride 9 has no exact solution and falls back to `(nc, k) = (1, 1)`;
a resolved stride of 5 admits no non-negative class count, so the decode
call fails and leaves the cache unchanged. -/
theorem claim_C2_legacy_schema_scan_witness :
    inferNcKpts 14 = some (0, 3) ∧
    inferNcKpts 9 = some (1, 1) ∧
    decode { isFloat := true, dims := [5, 5], buffer := some [] }
      { width := 640, height := 640 } 640 640 (1/4) (9/20)
      { seq := 0, kpts := 0, flat := [] }
      = (none, { seq := 0, kpts := 0, flat := [] }) := by
  refine ⟨?_, ?_, ?_⟩
  · exact (claim_C2_legacy_schema_scan 14).1 (by norm_num) 3 (by norm_num)
      (by norm_num) (by norm_num)
  · exact (claim_C2_legacy_schema_scan 9).2.1 (by norm_num)
      (fun k h1 h50 => by omega)
  · exact (claim_C2_legacy_schema_scan 9).2.2 _ _ 640 640 (1/4) (9/20) _ []
      5 5 false rfl (by simp [resolveLegacy]) (fun k h1 h50 => by omega)

/-- Counterexample for C3: a compact-pose tensor whose only candidate has
decoded class index `-1` (negative).  The claim says the decode call
returns failure; the code instead skips the candidate and returns success
with empty outputs. -/
theorem claim_C3_counterexample :
    (decode_yolo26_pose
      { isFloat := true, dims := [1, 6], buffer := some [0, 0, 0, 0, 9/10, -1] }
      { width := 640, height := 640 }
      { numClassesConfigured := 0, perClassPreclusterThreshold := [] }
      640 640 (1/4) { seq := 0, kpts := 0, flat := [] }).1
      = some ([], []) := by
  have hlr : lround (-1 : ℚ) = -1 := by
    have h := lround_intCast (-1)
    push_cast at h
    exact h
  have hres : resolveY26 [1, 6] = some (1, 6, false) := by decide
  norm_num [decode_yolo26_pose, hres, rowOf, y26Candidate, hlr,
    List.range_succ, List.filterMap_cons, List.filterMap_nil, stride_matches]

/-- Claim C3 (amended): the compact-pose decode fails exactly on
structural grounds - null buffer, or no dimension satisfying the
stride-plausibility test `stride >= 6` with `(stride - 6) % 3 = 0` (a
resolved stride always satisfies it); a candidate whose decoded class
index is negative, or at least the configured class count (when
positive), is silently skipped and does not make the call fail. -/
theorem claim_C3_amended_y26_failure_and_skip :
    (∀ (L : Layer) (net : NetInfo) (params : DetParams)
        (src_w src_h conf_thr : ℚ) (cache : PoseCache),
      L.buffer = none →
      decode_yolo26_pose L net params src_w src_h conf_thr cache = (none, cache)) ∧
    (∀ (L : Layer) (net : NetInfo) (params : DetParams)
        (src_w src_h conf_thr : ℚ) (cache : PoseCache) (data : List ℚ),
      L.buffer = some data → resolveY26 L.dims = none →
      decode_yolo26_pose L net params src_w src_h conf_thr cache = (none, cache)) ∧
    (∀ (dims : List ℕ) (num stride : ℕ) (cm : Bool),
      resolveY26 dims = some (num, stride, cm) →
      6 ≤ stride ∧ (stride - 6) % 3 = 0) ∧
    (∀ (L : Layer) (net : NetInfo) (params : DetParams)
        (src_w src_h conf_thr : ℚ) (cache : PoseCache) (data : List ℚ)
        (num stride : ℕ) (cm : Bool),
      L.buffer = some data → resolveY26 L.dims = some (num, stride, cm) →
      ((decode_yolo26_pose L net params src_w src_h conf_thr cache).1).isSome = true) ∧
    (∀ (row : List ℚ) (kpts : ℕ) (params : DetParams)
        (conf_thr gain pad_x pad_y src_w src_h : ℚ),
      (lround (row.getD 5 0) < 0 ∨
        (0 < params.numClassesConfigured ∧
          (params.numClassesConfigured : ℤ) ≤ lround (row.getD 5 0))) →
      y26Candidate row kpts params conf_thr gain pad_x pad_y src_w src_h = none) := by
  refine ⟨?_, ?_, ?_, ?_, ?_⟩
  · intro L net params src_w src_h conf_thr cache hb
    exact decode_y26_fail_buffer L net params src_w src_h conf_thr cache hb
  · intro L net params src_w src_h conf_thr cache data hb hr
    exact decode_y26_fail_resolve L net params src_w src_h conf_thr cache data hb hr
  · intro dims num stride cm hr
    have hm := resolveY26_matches dims num stride cm hr
    simp only [stride_matches, Bool.and_eq_true, decide_eq_true_eq] at hm
    exact hm
  · intro L net params src_w src_h conf_thr cache data num stride cm hb hr
    exact decode_y26_isSome L net params src_w src_h conf_thr cache data num stride cm hb hr
  · intro row kpts params conf_thr gain pad_x pad_y src_w src_h hbad
    rw [y26Candidate]
    rcases hbad with hneg | hrange
    · rw [if_pos hneg]
    · rw [if_neg (by omega), if_pos hrange]

/-- Witness for the amended C3: concrete null-buffer and
no-matching-stride failures leave the cache unchanged, a matching layout
(stride 6) is accepted and satisfies the divisibility, the call with a
buffer and matching dims succeeds, and a concrete candidate with class
index `-1` is skipped. -/
theorem claim_C3_amended_y26_failure_and_skip_witness :
    decode_yolo26_pose { isFloat := true, dims := [1, 6], buffer := none }
      { width := 640, height := 640 }
      { numClassesConfigured := 0, perClassPreclusterThreshold := [] }
      640 640 (1/4) { seq := 7, kpts := 3, flat := [2] }
      = (none, { seq := 7, kpts := 3, flat := [2] }) ∧
    decode_yolo26_pose { isFloat := true, dims := [1, 5], buffer := some [] }
      { width := 640, height := 640 }
      { numClassesConfigured := 0, perClassPreclusterThreshold := [] }
      640 640 (1/4) { seq := 7, kpts := 3, flat := [2] }
      = (none, { seq := 7, kpts := 3, flat := [2] }) ∧
    (6 ≤ 6 ∧ (6 - 6) % 3 = 0) ∧
    ((decode_yolo26_pose
        { isFloat := true, dims := [1, 6], buffer := some [0, 0, 0, 0, 9/10, 2] }
        { width := 640, height := 640 }
        { numClassesConfigured := 0, perClassPreclusterThreshold := [] }
        640 640 (1/4) { seq := 7, kpts := 3, flat := [2] }).1).isSome = true ∧
    y26Candidate [0, 0, 0, 0, 9/10, -1] 0
      { numClassesConfigured := 0, perClassPreclusterThreshold := [] }
      (1/4) 1 0 0 640 640 = none := by
  have hlr : lround (-1 : ℚ) = -1 := by
    have h := lround_intCast (-1)
    push_cast at h
    exact h
  refine ⟨?_, ?_, ?_, ?_, ?_⟩
  · exact claim_C3_amended_y26_failure_and_skip.1 _ _ _ _ _ _ _ rfl
  · exact claim_C3_amended_y26_failure_and_skip.2.1 _ _ _ _ _ _ _ [] rfl (by decide)
  · exact claim_C3_amended_y26_failure_and_skip.2.2.1 [1, 6] 1 6 false (by decide)
  · exact claim_C3_amended_y26_failure_and_skip.2.2.2.1 _ _ _ _ _ _ _
      [0, 0, 0, 0, 9/10, 2] 1 6 false rfl (by decide)
  · exact claim_C3_amended_y26_failure_and_skip.2.2.2.2 _ _ _ _ _ _ _ _ _
      (Or.inl (by norm_num [hlr]))

/-- Counterexample for C8: a compact-pose candidate with class index `-1`
and confidence `9/10` is rejected (skipped) even though its confidence is
not below its effective threshold (`1/4`), so "rejected exactly when
confidence is below the effective threshold" fails as stated for
candidates with an invalid class index. -/
theorem claim_C8_counterexample :
    y26Candidate [0, 0, 0, 0, 9/10, -1] 0
      { numClassesConfigured := 2, perClassPreclusterThreshold := [] }
      (1/4) 1 0 0 640 640 = none ∧
    ¬((9/10 : ℚ) < class_threshold
        { numClassesConfigured := 2, perClassPreclusterThreshold := [] }
        (lround ((-1 : ℚ))) (1/4)) := by
  have hlr : lround (-1 : ℚ) = -1 := by
    have h := lround_intCast (-1)
    push_cast at h
    exact h
  constructor
  · rw [y26Candidate, if_pos (by norm_num [hlr])]
  · rw [hlr, class_threshold]
    norm_num

/-- Claim C8 (amended): the effective threshold is the per-class entry
when the class index is within bounds, else the first entry when the
sequence is non-empty, else the global default; a candidate whose class
index passes the validity checks is silently rejected exactly when its
confidence is below this effective threshold (candidates with an invalid
class index are instead rejected by the class checks themselves). -/
theorem claim_C8_amended_effective_threshold :
    (∀ (params : DetParams) (cls : ℤ) (fb : ℚ),
      (0 ≤ cls → cls.toNat < params.perClassPreclusterThreshold.length →
        class_threshold params cls fb
          = params.perClassPreclusterThreshold.getD cls.toNat 0) ∧
      (¬(0 ≤ cls ∧ cls.toNat < params.perClassPreclusterThreshold.length) →
        params.perClassPreclusterThreshold ≠ [] →
        class_threshold params cls fb = params.perClassPreclusterThreshold.getD 0 0) ∧
      (params.perClassPreclusterThreshold = [] → class_threshold params cls fb = fb)) ∧
    (∀ (row : List ℚ) (kpts : ℕ) (params : DetParams)
        (conf_thr gain pad_x pad_y src_w src_h : ℚ),
      0 ≤ lround (row.getD 5 0) →
      (0 < params.numClassesConfigured →
        lround (row.getD 5 0) < (params.numClassesConfigured : ℤ)) →
      (y26Candidate row kpts params conf_thr gain pad_x pad_y src_w src_h = none ↔
        row.getD 4 0 < class_threshold params (lround (row.getD 5 0)) conf_thr)) := by
  constructor
  · intro params cls fb
    refine ⟨?_, ?_, ?_⟩
    · intro h0 hlen
      rw [class_threshold, if_pos ⟨h0, hlen⟩]
    · intro hout hne
      rw [class_threshold, if_neg hout, if_pos hne]
    · intro hemp
      rw [class_threshold, if_neg (by rw [hemp]; simp), if_neg (by rw [hemp]; simp)]
  · intro row kpts params conf_thr gain pad_x pad_y src_w src_h h0 hcfg
    rw [y26Candidate, if_neg (not_lt.mpr h0), if_neg (by
      rintro ⟨hpos, hge⟩
      exact absurd (hcfg hpos) (not_lt.mpr hge))]
    by_cases hthr : row.getD 4 0 < class_threshold params (lround (row.getD 5 0)) conf_thr
    · rw [if_pos hthr]
      exact iff_of_true rfl hthr
    · rw [if_neg hthr]
      exact iff_of_false (by simp) hthr

/-- Witness for the amended C8: with thresholds `[1/2, 3/5]` the in-range
class 1 gets `3/5`, the out-of-range class 5 gets the first entry `1/2`,
the empty sequence yields the default; a class-valid candidate with
confidence `1/10` below its effective default threshold `1/4` is
rejected. -/
theorem claim_C8_amended_effective_threshold_witness :
    class_threshold
      { numClassesConfigured := 2, perClassPreclusterThreshold := [1/2, 3/5] } 1 (1/4)
      = 3/5 ∧
    class_threshold
      { numClassesConfigured := 2, perClassPreclusterThreshold := [1/2, 3/5] } 5 (1/4)
      = 1/2 ∧
    class_threshold
      { numClassesConfigured := 0, perClassPreclusterThreshold := [] } 1 (1/4) = 1/4 ∧
    y26Candidate [0, 0, 0, 0, 1/10, 0] 0
      { numClassesConfigured := 0, perClassPreclusterThreshold := [] }
      (1/4) 1 0 0 640 640 = none := by
  have hlr0 : lround (0 : ℚ) = 0 := by
    have h := lround_intCast 0
    push_cast at h
    exact h
  refine ⟨?_, ?_, ?_, ?_⟩
  · have h := (claim_C8_amended_effective_threshold.1
      { numClassesConfigured := 2, perClassPreclusterThreshold := [1/2, 3/5] } 1 (1/4)).1
      (by norm_num) (by norm_num)
    rw [h]
    norm_num
  · have h := (claim_C8_amended_effective_threshold.1
      { numClassesConfigured := 2, perClassPreclusterThreshold := [1/2, 3/5] } 5 (1/4)).2.1
      (by norm_num) (by simp)
    rw [h]
    norm_num
  · exact (claim_C8_amended_effective_threshold.1
      { numClassesConfigured := 0, perClassPreclusterThreshold := [] } 1 (1/4)).2.2 rfl
  · refine (claim_C8_amended_effective_threshold.2 [0, 0, 0, 0, 1/10, 0] 0
      { numClassesConfigured := 0, perClassPreclusterThreshold := [] }
      (1/4) 1 0 0 640 640 (by norm_num [hlr0]) (by norm_num)).mpr ?_
    norm_num [hlr0, class_threshold]

/-- Counterexample for C9: in the main pose parser an accepted candidate's
box is NOT clamped to `[0, netDim - 1]` in network space before the
letterbox inverse.  With network 640, source 1280 (gain 1/2, no padding)
and a raw row `[600,100,200,50,...]` (network-space corner x2 = 700), the
code emits x2 = 1279 (source-space clamp after the inverse), while
clamping 700 to `[0, 639]` in network space first and then inverting
would give 1278. -/
theorem claim_C9_counterexample :
    (decode { isFloat := true, dims := [1, 8, 1],
              buffer := some [600, 100, 200, 50, 9/10, 5, 5, 1] }
      { width := 640, height := 640 } 1280 1280 (1/4) (9/20)
      { seq := 0, kpts := 0, flat := [] }).1
      = some [{ x1 := 1000, y1 := 150, x2 := 1279, y2 := 250, conf := 9/10,
                cls := 0, kpts := [10, 10, 1] }] ∧
    (unletterbox (min (max 700 0) (640 - 1)) 0 (1/2) 0 0 1280 1280).1 = 1278 ∧
    (1279 : ℚ) ≠ 1278 := by
  refine ⟨?_, ?_, by norm_num⟩
  · have h1 : inferNcKpts 8 = some (0, 1) := by decide
    have h2 : resolveLegacy [1, 8, 1] = some (1, 8, true) := by decide
    have h3 : rowOf [600, 100, 200, 50, 9/10, 5, 5, 1] true 8 1 0
        = [600, 100, 200, 50, 9/10, 5, 5, 1] := by
      norm_num [rowOf, List.range_succ]
    have h4 : legacyCandidate [600, 100, 200, 50, 9/10, 5, 5, 1] 0 1
        640 640 (1/2) 0 0 1280 1280 (1/4)
        = some { x1 := 1000, y1 := 150, x2 := 1279, y2 := 250, conf := 9/10,
                 cls := 0, kpts := [10, 10, 1] } := by
      norm_num [legacyCandidate, unletterbox, List.range_succ]
    norm_num [decode, h1, h2, h3, h4, sortByConf, nmsLoop,
      List.range_succ, List.mergeSort, List.filterMap_cons, List.filterMap_nil]
  · norm_num [unletterbox]

/-- Claim C9 (amended): the int8-test pose variant clamps accepted box
coordinates to `[0, netDim - 1]` in network space; the main pose parser
instead clamps to `[0, srcDim - 1]` in source space after the letterbox
inverse; the oriented-box parser absolute-values width/height and clamps
them to `[0, netDim]` instead of rejecting negative sizes. -/
theorem claim_C9_amended_clamping :
    (∀ (row : List ℚ) (nc kpts : ℕ) (inW inH conf_thr : ℚ) (d : PoseDet),
      1 ≤ inW → 1 ≤ inH →
      int8Candidate row nc kpts inW inH conf_thr = some d →
      (0 ≤ d.x1 ∧ d.x1 ≤ inW - 1) ∧ (0 ≤ d.y1 ∧ d.y1 ≤ inH - 1) ∧
      (0 ≤ d.x2 ∧ d.x2 ≤ inW - 1) ∧ (0 ≤ d.y2 ∧ d.y2 ≤ inH - 1)) ∧
    (∀ (row : List ℚ) (nc kpts : ℕ)
        (inW inH gain pad_x pad_y src_w src_h conf_thr : ℚ) (d : PoseDet),
      1 ≤ src_w → 1 ≤ src_h →
      legacyCandidate row nc kpts inW inH gain pad_x pad_y src_w src_h conf_thr
        = some d →
      (0 ≤ d.x1 ∧ d.x1 ≤ src_w - 1) ∧ (0 ≤ d.y1 ∧ d.y1 ≤ src_h - 1) ∧
      (0 ≤ d.x2 ∧ d.x2 ≤ src_w - 1) ∧ (0 ≤ d.y2 ∧ d.y2 ≤ src_h - 1)) ∧
    (∀ (p : List ℚ) (D nc : ℤ) (inW inH conf_thr : ℚ) (d : OBBDet),
      decode_one p D nc inW inH conf_thr = some d →
      d.w = max 0 (min |p.getD 2 0| inW) ∧ d.h = max 0 (min |p.getD 3 0| inH)) := by
  have hgen : ∀ v hi : ℚ, 0 ≤ hi → 0 ≤ min (max v 0) hi ∧ min (max v 0) hi ≤ hi :=
    fun v hi h => ⟨le_min (le_max_right v 0) h, min_le_right _ _⟩
  refine ⟨?_, ?_, ?_⟩
  · intro row nc kpts inW inH conf_thr d hw hh h
    simp only [int8Candidate] at h
    split at h
    · exact absurd h (by simp)
    · split at h <;>
      · split at h
        · exact absurd h (by simp)
        · injection h with h
          subst h
          exact ⟨hgen _ _ (by linarith), hgen _ _ (by linarith),
                 hgen _ _ (by linarith), hgen _ _ (by linarith)⟩
  · intro row nc kpts inW inH gain pad_x pad_y src_w src_h conf_thr d hw hh h
    simp only [legacyCandidate, unletterbox] at h
    split at h
    · exact absurd h (by simp)
    · split at h <;>
      · split at h
        · exact absurd h (by simp)
        · injection h with h
          subst h
          exact ⟨hgen _ _ (by linarith), hgen _ _ (by linarith),
                 hgen _ _ (by linarith), hgen _ _ (by linarith)⟩
  · intro p D nc inW inH conf_thr d h
    simp only [decode_one] at h
    split at h
    · exact absurd h (by simp)
    · split at h
      · exact absurd h (by simp)
      · split at h <;>
        · split at h
          · exact absurd h (by simp)
          · injection h with h
            subst h
            exact ⟨rfl, rfl⟩

/-- Witness for the amended C9: a concrete accepted int8 candidate has all
box coordinates inside `[0, 639]`; a concrete accepted main-parser
candidate (source 1280) has all coordinates inside `[0, 1279]`; a concrete
oriented box with raw width `-3` is accepted with the absolute-valued
clamped width `3`. -/
theorem claim_C9_amended_clamping_witness :
    (((0:ℚ) ≤ 295 ∧ (295:ℚ) ≤ 640 - 1) ∧ ((0:ℚ) ≤ 295 ∧ (295:ℚ) ≤ 640 - 1) ∧
     ((0:ℚ) ≤ 345 ∧ (345:ℚ) ≤ 640 - 1) ∧ ((0:ℚ) ≤ 345 ∧ (345:ℚ) ≤ 640 - 1)) ∧
    (((0:ℚ) ≤ 1000 ∧ (1000:ℚ) ≤ 1280 - 1) ∧ ((0:ℚ) ≤ 150 ∧ (150:ℚ) ≤ 1280 - 1) ∧
     ((0:ℚ) ≤ 1279 ∧ (1279:ℚ) ≤ 1280 - 1) ∧ ((0:ℚ) ≤ 250 ∧ (250:ℚ) ≤ 1280 - 1)) ∧
    ((3:ℚ) = max 0 (min |(-3:ℚ)| 640) ∧ (4:ℚ) = max 0 (min |(4:ℚ)| 640)) := by
  refine ⟨?_, ?_, ?_⟩
  · have h := claim_C9_amended_clamping.1 [320, 320, 50, 50, 9/10, 5, 5, 1] 0 1
      640 640 (1/4)
      { x1 := 295, y1 := 295, x2 := 345, y2 := 345, conf := 9/10, cls := 0,
        kpts := [5, 5, 1] }
      (by norm_num) (by norm_num)
      (by norm_num [int8Candidate, List.range_succ])
    simpa using h
  · have h := claim_C9_amended_clamping.2.1 [600, 100, 200, 50, 9/10, 5, 5, 1] 0 1
      640 640 (1/2) 0 0 1280 1280 (1/4)
      { x1 := 1000, y1 := 150, x2 := 1279, y2 := 250, conf := 9/10, cls := 0,
        kpts := [10, 10, 1] }
      (by norm_num) (by norm_num)
      (by norm_num [legacyCandidate, unletterbox, List.range_succ])
    simpa using h
  · have h := claim_C9_amended_clamping.2.2 [1, 2, -3, 4, 1, 9/10, 1] 7 1
      640 640 (1/4)
      { cx := 1, cy := 2, w := 3, h := 4, theta := 1, conf := 9/10, cls := 0 }
      (by norm_num [decode_one, chooseThetaObj, clampf])
    simpa using h

/-- Claim C7: on every detectable structural error (empty layer list, null
buffer, unsupported rank, no stride-plausible dimension, unsolvable
schema) each parser entry point returns `false` and leaves the caller's
output list untouched (and the pose cache unchanged). -/
theorem claim_C7_structural_error_propagation :
    (∀ (net : NetInfo) (src_w src_h : ℚ) (objects : List ObjInfo) (cache : PoseCache),
      parse_pose_internal [] net src_w src_h objects cache = (false, objects, cache)) ∧
    (∀ (layers : List Layer) (L : Layer) (net : NetInfo) (src_w src_h : ℚ)
        (objects : List ObjInfo) (cache : PoseCache),
      pickLayer layers = some L → L.buffer = none →
      parse_pose_internal layers net src_w src_h objects cache = (false, objects, cache)) ∧
    (∀ (layers : List Layer) (L : Layer) (net : NetInfo) (src_w src_h : ℚ)
        (objects : List ObjInfo) (cache : PoseCache) (data : List ℚ),
      pickLayer layers = some L → L.buffer = some data →
      resolveLegacy L.dims = none →
      parse_pose_internal layers net src_w src_h objects cache = (false, objects, cache)) ∧
    (∀ (layers : List Layer) (L : Layer) (net : NetInfo) (src_w src_h : ℚ)
        (objects : List ObjInfo) (cache : PoseCache) (data : List ℚ)
        (num dimN : ℕ) (cm : Bool),
      pickLayer layers = some L → L.buffer = some data →
      resolveLegacy L.dims = some (num, dimN, cm) →
      (dimN < 8 ∨ inferNcKpts (dimN : ℤ) = none) →
      parse_pose_internal layers net src_w src_h objects cache = (false, objects, cache)) ∧
    (∀ (net : NetInfo) (params : DetParams) (src_w src_h : ℚ)
        (objects : List MaskObj) (cache : PoseCache),
      parseYolo26Pose [] net params src_w src_h objects cache = (false, objects, cache)) ∧
    (∀ (layers : List Layer) (L : Layer) (net : NetInfo) (params : DetParams)
        (src_w src_h : ℚ) (objects : List MaskObj) (cache : PoseCache),
      pickLayer layers = some L → L.buffer = none →
      parseYolo26Pose layers net params src_w src_h objects cache = (false, objects, cache)) ∧
    (∀ (layers : List Layer) (L : Layer) (net : NetInfo) (params : DetParams)
        (src_w src_h : ℚ) (objects : List MaskObj) (cache : PoseCache) (data : List ℚ),
      pickLayer layers = some L → L.buffer = some data →
      resolveY26 L.dims = none →
      parseYolo26Pose layers net params src_w src_h objects cache = (false, objects, cache)) ∧
    (∀ (net : NetInfo) (objects : List ObjInfo),
      parse_obb_internal [] net objects = (false, objects)) ∧
    (∀ (layers : List Layer) (L : Layer) (net : NetInfo) (objects : List ObjInfo),
      pickLayer layers = some L → L.buffer = none →
      parse_obb_internal layers net objects = (false, objects)) ∧
    (∀ (layers : List Layer) (L : Layer) (net : NetInfo) (objects : List ObjInfo)
        (data : List ℚ),
      pickLayer layers = some L → L.buffer = some data →
      L.dims.length ≠ 2 ∧ L.dims.length ≠ 3 →
      parse_obb_internal layers net objects = (false, objects)) := by
  refine ⟨?_, ?_, ?_, ?_, ?_, ?_, ?_, ?_, ?_, ?_⟩
  · intro net src_w src_h objects cache
    rfl
  · intro layers L net src_w src_h objects cache hpick hb
    have hdec := decode_fail_buffer L net src_w src_h (1/4) (9/20) cache hb
    simp only [parse_pose_internal, hpick, hdec]
  · intro layers L net src_w src_h objects cache data hpick hb hr
    have hdec := decode_fail_resolve L net src_w src_h (1/4) (9/20) cache data hb hr
    simp only [parse_pose_internal, hpick, hdec]
  · intro layers L net src_w src_h objects cache data num dimN cm hpick hb hr hbad
    have hdec : decode L net src_w src_h (1/4) (9/20) cache = (none, cache) := by
      rcases hbad with hd | hi
      · exact decode_fail_smallDim L net src_w src_h (1/4) (9/20) cache data
          num dimN cm hb hr (by omega)
      · by_cases hd : dimN < 5 + 3
        · exact decode_fail_smallDim L net src_w src_h (1/4) (9/20) cache data
            num dimN cm hb hr hd
        · exact decode_fail_infer L net src_w src_h (1/4) (9/20) cache data
            num dimN cm hb hr hd hi
    simp only [parse_pose_internal, hpick, hdec]
  · intro net params src_w src_h objects cache
    rfl
  · intro layers L net params src_w src_h objects cache hpick hb
    have hdec := decode_y26_fail_buffer L net params src_w src_h (1/4) cache hb
    simp only [parseYolo26Pose, hpick, hdec]
  · intro layers L net params src_w src_h objects cache data hpick hb hr
    have hdec := decode_y26_fail_resolve L net params src_w src_h (1/4) cache data hb hr
    simp only [parseYolo26Pose, hpick, hdec]
  · intro net objects
    rfl
  · intro layers L net objects hpick hb
    have hdec := decode_all_fail_buffer L net (1/4) (9/20) hb
    simp only [parse_obb_internal, hpick, hdec]
  · intro layers L net objects data hpick hb hrank
    have hdec := decode_all_fail_rank L net (1/4) (9/20) data hb hrank
    simp only [parse_obb_internal, hpick, hdec]

/-- Witness for C7: concrete structural failures for each entry point -
empty layer list, a null-buffer float layer, a rank-1 shape, a stride-5
pose shape, a non-matching compact-pose shape, and a rank-4 OBB shape -
each return `false` with the caller's non-empty output list and the cache
intact. -/
theorem claim_C7_structural_error_propagation_witness :
    parse_pose_internal [] { width := 640, height := 640 } 640 640
      [{ classId := 9, left := 1, top := 2, width := 3, height := 4, conf := 5 }]
      { seq := 4, kpts := 2, flat := [6] }
      = (false,
         [{ classId := 9, left := 1, top := 2, width := 3, height := 4, conf := 5 }],
         { seq := 4, kpts := 2, flat := [6] }) ∧
    parse_pose_internal [{ isFloat := true, dims := [1, 8], buffer := none }]
      { width := 640, height := 640 } 640 640 [] { seq := 4, kpts := 2, flat := [6] }
      = (false, [], { seq := 4, kpts := 2, flat := [6] }) ∧
    parse_pose_internal [{ isFloat := true, dims := [8], buffer := some [] }]
      { width := 640, height := 640 } 640 640 [] { seq := 4, kpts := 2, flat := [6] }
      = (false, [], { seq := 4, kpts := 2, flat := [6] }) ∧
    parse_pose_internal [{ isFloat := true, dims := [5, 5], buffer := some [] }]
      { width := 640, height := 640 } 640 640 [] { seq := 4, kpts := 2, flat := [6] }
      = (false, [], { seq := 4, kpts := 2, flat := [6] }) ∧
    parseYolo26Pose [] { width := 640, height := 640 }
      { numClassesConfigured := 0, perClassPreclusterThreshold := [] } 640 640
      [{ classId := 9, left := 1, top := 2, width := 3, height := 4, conf := 5 }]
      { seq := 4, kpts := 2, flat := [6] }
      = (false,
         [{ classId := 9, left := 1, top := 2, width := 3, height := 4, conf := 5 }],
         { seq := 4, kpts := 2, flat := [6] }) ∧
    parseYolo26Pose [{ isFloat := true, dims := [1, 6], buffer := none }]
      { width := 640, height := 640 }
      { numClassesConfigured := 0, perClassPreclusterThreshold := [] } 640 640
      [] { seq := 4, kpts := 2, flat := [6] }
      = (false, [], { seq := 4, kpts := 2, flat := [6] }) ∧
    parseYolo26Pose [{ isFloat := true, dims := [1, 5], buffer := some [] }]
      { width := 640, height := 640 }
      { numClassesConfigured := 0, perClassPreclusterThreshold := [] } 640 640
      [] { seq := 4, kpts := 2, flat := [6] }
      = (false, [], { seq := 4, kpts := 2, flat := [6] }) ∧
    parse_obb_internal [] { width := 640, height := 640 }
      [{ classId := 9, left := 1, top := 2, width := 3, height := 4, conf := 5 }]
      = (false,
         [{ classId := 9, left := 1, top := 2, width := 3, height := 4, conf := 5 }]) ∧
    parse_obb_internal [{ isFloat := true, dims := [1, 7], buffer := none }]
      { width := 640, height := 640 } []
      = (false, []) ∧
    parse_obb_internal [{ isFloat := true, dims := [1, 2, 3, 4], buffer := some [] }]
      { width := 640, height := 640 } []
      = (false, []) := by
  obtain ⟨h1, h2, h3, h4, h5, h6, h7, h8, h9, h10⟩ :=
    claim_C7_structural_error_propagation
  refine ⟨h1 _ _ _ _ _, ?_, ?_, ?_, h5 _ _ _ _ _ _, ?_, ?_, h8 _ _, ?_, ?_⟩
  · exact h2 _ { isFloat := true, dims := [1, 8], buffer := none } _ _ _ _ _
      (by simp [pickLayer, List.find?]) rfl
  · exact h3 _ { isFloat := true, dims := [8], buffer := some [] } _ _ _ _ _ []
      (by simp [pickLayer, List.find?]) rfl (by simp [resolveLegacy])
  · exact h4 _ { isFloat := true, dims := [5, 5], buffer := some [] } _ _ _ _ _ []
      5 5 false (by simp [pickLayer, List.find?]) rfl
      (by simp [resolveLegacy]) (Or.inl (by norm_num))
  · exact h6 _ { isFloat := true, dims := [1, 6], buffer := none } _ _ _ _ _ _
      (by simp [pickLayer, List.find?]) rfl
  · exact h7 _ { isFloat := true, dims := [1, 5], buffer := some [] } _ _ _ _ _ _ []
      (by simp [pickLayer, List.find?]) rfl (by decide)
  · exact h9 _ { isFloat := true, dims := [1, 7], buffer := none } _ _
      (by simp [pickLayer, List.find?]) rfl
  · exact h10 _ { isFloat := true, dims := [1, 2, 3, 4], buffer := some [] } _ _ []
      (by simp [pickLayer, List.find?]) rfl (by simp)

/-- Claim C10: every successful pose decode (legacy or compact convention)
increments the cache sequence number by exactly 1 and replaces the flat
buffer with exactly `N * (5 + 3*kpts)` rationals for the `N` stored
detections and the recorded keypoint count; every failing decode leaves
the cache unchanged. -/
theorem claim_C10_pose_cache_update :
    (∀ (L : Layer) (net : NetInfo) (src_w src_h conf_thr iou_thr : ℚ)
        (cache : PoseCache) (dets : List PoseDet) (cache2 : PoseCache),
      decode L net src_w src_h conf_thr iou_thr cache = (some dets, cache2) →
      cache2.seq = cache.seq + 1 ∧
      cache2.flat.length = dets.length * (5 + 3 * cache2.kpts)) ∧
    (∀ (L : Layer) (net : NetInfo) (src_w src_h conf_thr iou_thr : ℚ)
        (cache : PoseCache),
      (decode L net src_w src_h conf_thr iou_thr cache).1 = none →
      (decode L net src_w src_h conf_thr iou_thr cache).2 = cache) ∧
    (∀ (L : Layer) (net : NetInfo) (params : DetParams) (src_w src_h conf_thr : ℚ)
        (cache : PoseCache) (dets : List PoseDet) (objs : List MaskObj)
        (cache2 : PoseCache),
      decode_yolo26_pose L net params src_w src_h conf_thr cache
        = (some (dets, objs), cache2) →
      cache2.seq = cache.seq + 1 ∧
      cache2.flat.length = dets.length * (5 + 3 * cache2.kpts)) ∧
    (∀ (L : Layer) (net : NetInfo) (params : DetParams) (src_w src_h conf_thr : ℚ)
        (cache : PoseCache),
      (decode_yolo26_pose L net params src_w src_h conf_thr cache).1 = none →
      (decode_yolo26_pose L net params src_w src_h conf_thr cache).2 = cache) := by
  refine ⟨?_, ?_, ?_, ?_⟩
  · intro L net src_w src_h conf_thr iou_thr cache dets cache2 h
    obtain ⟨kpts, hc2, hlen⟩ :=
      decode_success_shape L net src_w src_h conf_thr iou_thr cache dets cache2 h
    subst hc2
    exact ⟨rfl, update_pose_cache_flat_length cache dets kpts hlen⟩
  · intro L net src_w src_h conf_thr iou_thr cache h
    exact decode_cache_of_fail L net src_w src_h conf_thr iou_thr cache h
  · intro L net params src_w src_h conf_thr cache dets objs cache2 h
    obtain ⟨kpts, hc2, hlen⟩ :=
      decode_y26_success_shape L net params src_w src_h conf_thr cache dets objs cache2 h
    subst hc2
    exact ⟨rfl, update_pose_cache_flat_length cache dets kpts hlen⟩
  · intro L net params src_w src_h conf_thr cache h
    exact decode_y26_cache_of_fail L net params src_w src_h conf_thr cache h

/-- Witness for C10: a concrete successful legacy decode (one detection,
one keypoint) bumps the sequence number from 0 to 1 and stores exactly
`1 * (5 + 3*1) = 8` values; a concrete null-buffer failure leaves a
non-trivial cache untouched. -/
theorem claim_C10_pose_cache_update_witness :
    (1 : ℕ) = 0 + 1 ∧ (8 : ℕ) = 1 * (5 + 3 * 1) ∧
    (decode { isFloat := true, dims := [1, 8, 1], buffer := none }
      { width := 640, height := 640 } 640 640 (1/4) (9/20)
      { seq := 5, kpts := 2, flat := [3] }).2
      = { seq := 5, kpts := 2, flat := [3] } := by
  have hdec : decode { isFloat := true, dims := [1, 8, 1],
                       buffer := some [600, 100, 200, 50, 9/10, 5, 5, 1] }
      { width := 640, height := 640 } 1280 1280 (1/4) (9/20)
      { seq := 0, kpts := 0, flat := [] }
      = (some [{ x1 := 1000, y1 := 150, x2 := 1279, y2 := 250, conf := 9/10,
                 cls := 0, kpts := [10, 10, 1] }],
         { seq := 1, kpts := 1, flat := [1000, 150, 1279, 250, 9/10, 10, 10, 1] }) := by
    have h1 : inferNcKpts 8 = some (0, 1) := by decide
    have h2 : resolveLegacy [1, 8, 1] = some (1, 8, true) := by decide
    have h3 : rowOf [600, 100, 200, 50, 9/10, 5, 5, 1] true 8 1 0
        = [600, 100, 200, 50, 9/10, 5, 5, 1] := by
      norm_num [rowOf, List.range_succ]
    have h4 : legacyCandidate [600, 100, 200, 50, 9/10, 5, 5, 1] 0 1
        640 640 (1/2) 0 0 1280 1280 (1/4)
        = some { x1 := 1000, y1 := 150, x2 := 1279, y2 := 250, conf := 9/10,
                 cls := 0, kpts := [10, 10, 1] } := by
      norm_num [legacyCandidate, unletterbox, List.range_succ]
    norm_num [decode, h1, h2, h3, h4, sortByConf, nmsLoop, update_pose_cache,
      List.range_succ, List.mergeSort, List.filterMap_cons, List.filterMap_nil,
      List.flatMap_cons, List.flatMap_nil]
  obtain ⟨ha, hb⟩ := claim_C10_pose_cache_update.1 _ _ _ _ _ _ _ _ _ hdec
  refine ⟨ha, ?_, ?_⟩
  · norm_num
  · exact claim_C10_pose_cache_update.2.1 _ _ _ _ _ _ _
      (by rw [decode_fail_buffer _ _ _ _ _ _ _ rfl])
